import Mathlib

set_option maxRecDepth 8000

/-!
Shallow embedding of `scripts/check_use.py`, the ordering linter that checks
that `use` statements sit at the top of each Rust file.

A line of text is modelled as a `List Char` (the characters of the Python
string, without the trailing newline handling changing anything: `strip`
removes it either way).  Python's `str.strip()` becomes `strip` below,
`str.startswith(p)` becomes `p.data.isPrefixOf`, and `c in s` becomes
`List.contains`.  The per-file scan `check_file` is a fold of `processLine`
(the body of the `for i, line in enumerate(lines)` loop) over the lines,
carrying the loop's three locals (`errors`, `seen_non_use_code`,
`in_multiline_use`) as an explicit `ScanState`.

The `main` loop over files is modelled by `scanAll` / `mainExit`: each file
is given as `Option (List (List Char))` where `none` stands for a file whose
`open`/decode raises (unreadable or not valid UTF-8).  `check_file` has no
exception handler, so in the source an unreadable file propagates the
exception out of `main`'s loop: `scanAll` returns the per-file results
produced before the failing file together with a crash flag, and `mainExit`
returns `none` (abnormal termination) instead of an exit code in that case.
-/

/-- Python `line.strip()` (check_use.py line 23): drop whitespace from both
ends of the line. -/
def strip (l : List Char) : List Char :=
  ((l.dropWhile Char.isWhitespace).reverse.dropWhile Char.isWhitespace).reverse

/-- The loop state of `check_file` (check_use.py lines 18-20): the error
messages collected so far, whether a non-`use`/`mod` code line has been
seen, and whether the scan is inside a multi-line `use` statement. -/
structure ScanState where
  errors : List String
  seen_non_use_code : Bool
  in_multiline_use : Bool
deriving Repr, DecidableEq

/-- The state at the top of `check_file` (check_use.py lines 18-20). -/
def initState : ScanState := ⟨[], false, false⟩

/-- The message recorded for a late `use` statement on 1-based line `n`
(check_use.py line 47, `f"  Line :i+1:: use 語句不在檔案頂部"` with the
braces of the f-string rendered as colons here). -/
def errMsg (n : Nat) : String :=
  "  Line " ++ Nat.repr n ++ ": use 語句不在檔案頂部"

/-- One iteration of the loop of `check_file` (check_use.py lines 22-50) on
the 0-based line index `i` and the line's text. -/
def processLine (s : ScanState) (i : Nat) (line : List Char) : ScanState :=
  let stripped := strip line
  if stripped.isEmpty || "//".data.isPrefixOf stripped then s
  else if s.in_multiline_use then
    if stripped.contains '\x3b' then { s with in_multiline_use := false } else s
  else if "use ".data.isPrefixOf stripped || "mod ".data.isPrefixOf stripped
      || "pub mod ".data.isPrefixOf stripped || "#[".data.isPrefixOf stripped then
    if "use ".data.isPrefixOf stripped && stripped.contains '\x7b'
        && !stripped.contains '\x7d' then
      { s with in_multiline_use := true }
    else if s.seen_non_use_code && "use ".data.isPrefixOf stripped then
      { s with errors := s.errors ++ [errMsg (i + 1)] }
    else s
  else
    { s with seen_non_use_code := true }

/-- The loop of `check_file` from state `s` at 0-based line index `i`. -/
def scanFrom (s : ScanState) (i : Nat) : List (List Char) → ScanState
  | [] => s
  | l :: ls => scanFrom (processLine s i l) (i + 1) ls

/-- `check_file` (check_use.py lines 13-52): scan the file's lines and
return `(has_error, error_messages)` where `has_error` is
`len(errors) > 0`. -/
def check_file (lines : List (List Char)) : Bool × List String :=
  let fin := scanFrom initState 0 lines
  (decide (0 < fin.errors.length), fin.errors)

/-- The loop of `main` over the files (check_use.py lines 67-73), with each
file's content given as `some lines`, or `none` for a file whose read
raises.  Returns the per-file `check_file` results produced before any
failing file, and `true` when a read failure aborted the loop (`check_file`
and `main` install no exception handler). -/
def scanAll : List (Option (List (List Char))) → List (Bool × List String) × Bool
  | [] => ([], false)
  | none :: _ => ([], true)
  | some ls :: rest =>
    let r := scanAll rest
    (check_file ls :: r.1, r.2)

/-- The exit signal of `main` (check_use.py lines 66-80): `some 0` when
every file was scanned clean, `some 1` when every file was scanned and at
least one had errors, `none` when a read failure terminated the process
abnormally (an uncaught exception). -/
def mainExit (files : List (Option (List (List Char)))) : Option Nat :=
  let r := scanAll files
  if r.2 then none
  else some (if r.1.any (fun p => p.1) then 1 else 0)

/-- A line whose trimmed text is blank, a comment, an attribute, a module
declaration or a `use` declaration: exactly the lines that never take the
`else` branch of check_use.py lines 36-50 (the branch that sets
`seen_non_use_code`). -/
def topAllowed (l : List Char) : Bool :=
  (strip l).isEmpty || "//".data.isPrefixOf (strip l)
    || "#[".data.isPrefixOf (strip l) || "mod ".data.isPrefixOf (strip l)
    || "pub mod ".data.isPrefixOf (strip l) || "use ".data.isPrefixOf (strip l)

example : check_file ["use a;".data, "fn f() \x7b\x7d".data, "use b;".data]
    = (true, [errMsg 3]) := by decide

example : check_file ["// header".data, "use a;".data, "mod m;".data, "use b;".data]
    = (false, []) := by decide

example : check_file ["use a::\x7b".data, "  b,".data, "  c,".data, "\x7d;".data,
    "fn f() \x7b\x7d".data, "use d;".data] = (true, [errMsg 6]) := by decide

example : check_file [] = (false, []) := by decide

/-- A list with a given head as its boolean-valued (`isPrefixOf`) prefix is
a cons of that head. -/
lemma eq_cons_of_isPrefixOf_cons {a : Char} {p l : List Char}
    (h : (a :: p).isPrefixOf l = true) : ∃ t, l = a :: t := by
  rw [List.isPrefixOf_iff_prefix] at h
  cases l with
  | nil => simp at h
  | cons b t =>
    rw [List.cons_prefix_cons] at h
    exact ⟨t, by rw [h.1]⟩

/-- Two lists starting with different characters are not prefixes of each
other (boolean version, head case). -/
lemma isPrefixOf_cons_ne {a b : Char} {q t : List Char} (h : b ≠ a) :
    (b :: q).isPrefixOf (a :: t) = false := by
  rw [Bool.eq_false_iff]
  intro hc
  rw [List.isPrefixOf_iff_prefix, List.cons_prefix_cons] at hc
  exact h hc.1

/-- Characters of the stripped line are characters of the line. -/
lemma mem_of_mem_strip {c : Char} {l : List Char} (h : c ∈ strip l) : c ∈ l := by
  unfold strip at h
  rw [List.mem_reverse] at h
  have h1 := (List.dropWhile_sublist Char.isWhitespace).subset h
  rw [List.mem_reverse] at h1
  exact (List.dropWhile_sublist Char.isWhitespace).subset h1

/-- Stripping cannot introduce a character: a line without a semicolon has a
stripped form without a semicolon (check_use.py line 31 tests the stripped
line). -/
lemma strip_contains_false {c : Char} {l : List Char} (h : l.contains c = false) :
    (strip l).contains c = false := by
  simp only [List.contains, List.elem_eq_mem, decide_eq_false_iff_not] at h ⊢
  exact fun hx => h (mem_of_mem_strip hx)

/-- C1: the claim reads "exactly one violation per Declaration line after
the first Other line", but a `use` line that opens a brace without closing
it on the same line enters the multi-line branch (check_use.py line 43)
INSTEAD of the error branch (the `elif` on line 46), so a multi-line `use`
opener after body code is never flagged; the same file with a single-line
late `use` is flagged.  This contradicts the script's stated purpose
(docstring, line 3, and the comment on line 45). -/
theorem late_multiline_use_not_flagged :
    check_file ["fn main() \x7b\x7d".data, "use a::\x7b".data, "\x7d;".data]
      = (false, []) ∧
    check_file ["fn main() \x7b\x7d".data, "use a;".data] = (true, [errMsg 2]) := by
  decide

/-- C9: a line starting with the inner-attribute marker does not start with
the outer-attribute marker, so it falls to the `else` branch
(check_use.py line 48), sets `seen_non_use_code`, and a later `use` line is
flagged with its 1-based number. -/
theorem inner_attribute_is_body :
    (processLine initState 0 "#![feature(x)]".data).seen_non_use_code = true ∧
    check_file ["#![feature(x)]".data, "use std::io;".data]
      = (true, [errMsg 2]) := by
  decide

/-- C10: `check_file` returns `has_error = (len(errors) > 0)`
(check_use.py line 52), so the boolean equals non-emptiness of the returned
violation list. -/
theorem has_error_iff_errors_nonempty (lines : List (List Char)) :
    (check_file lines).1 = true ↔ (check_file lines).2 ≠ [] := by
  simp only [check_file]
  cases h : (scanFrom initState 0 lines).errors <;> simp [h]

/-- C8: the per-file scan is a pure function of the file's own lines: over
any list of (readable) files, the aggregate's entry for each file is
exactly `check_file` of that file's lines, independent of the other files;
in particular identical line sequences anywhere in the run yield identical
violation lists. -/
theorem scan_results_pure_per_file (files : List (List (List Char))) :
    scanAll (files.map Option.some) = (files.map check_file, false) := by
  induction files with
  | nil => rfl
  | cons f fs ih => simp [scanAll, ih]

/-- C2 counterexample: a `mod` line with an open brace and no close does
not enter the multi-line continuation state (the test on check_use.py
line 43 requires the `use ` keyword), while a `use` line of the same shape
does. -/
theorem mod_open_brace_no_continuation_cex :
    (processLine initState 0 "mod m \x7b".data).in_multiline_use = false ∧
    (processLine initState 0 "use m::\x7b".data).in_multiline_use = true := by
  decide

/-- C3 counterexample: inside a continuation, a comment line containing the
terminator does NOT end the continuation: blank and comment lines are
skipped (check_use.py line 26) before the continuation test on line 30 is
reached, so the claim "the continuation ends exactly on the first line
whose text contains the terminator" fails on a comment line. -/
theorem comment_semicolon_keeps_continuation_cex :
    (strip "// item;".data).contains '\x3b' = true ∧
    (processLine ⟨[], false, true⟩ 0 "// item;".data).in_multiline_use = true := by
  decide

/-- C4 counterexample: a read failure on the first file (modelled as
`none`) propagates as an uncaught exception out of `check_file`
(check_use.py line 15 has no handler): the loop of `main` stops, the
readable second file is never scanned and gets no report entry. -/
theorem read_failure_aborts_scan_cex :
    scanAll [none, some ["fn f();".data]] = ([], true) := by
  decide

/-- C4 amended: a read failure is NOT contained to the failing file: the
files before it are scanned and reported normally, but the scan aborts at
the first unreadable file — it and all later files produce no report entry,
and the run terminates abnormally. -/
theorem read_failure_truncates_report (pre : List (List (List Char)))
    (post : List (Option (List (List Char)))) :
    scanAll (pre.map Option.some ++ none :: post) = (pre.map check_file, true) := by
  induction pre with
  | nil => rfl
  | cons f fs ih => simp [scanAll, ih]

/-- Inside a continuation, a line with no semicolon leaves the state
untouched: blank and comment lines are skipped (check_use.py line 26), any
other line is consumed by the continuation test (lines 30-33). -/
lemma processLine_in_continuation_no_semi (s : ScanState) (i : Nat)
    (l : List Char) (hm : s.in_multiline_use = true)
    (hns : l.contains '\x3b' = false) : processLine s i l = s := by
  have hstr := strip_contains_false hns
  have hmem : '\x3b' ∉ strip l := by
    simp only [List.contains, List.elem_eq_mem, decide_eq_false_iff_not] at hstr
    exact hstr
  by_cases hA : ((strip l).isEmpty || "//".data.isPrefixOf (strip l)) = true
  · simp [processLine, hA]
  · simp [processLine, hA, hm, hstr, hmem]

/-- C6: once in the continuation state, if no later line contains the
terminator, every remaining line is consumed unchanged (no violation, no
state change) up to end of file. -/
theorem unterminated_continuation_consumes_rest (s : ScanState) (i : Nat)
    (lines : List (List Char)) (hm : s.in_multiline_use = true)
    (hall : ∀ l ∈ lines, l.contains '\x3b' = false) :
    scanFrom s i lines = s := by
  revert hall
  induction lines generalizing i with
  | nil => intro _; rfl
  | cons l ls ih =>
    intro hall
    have h1 := processLine_in_continuation_no_semi s i l hm
      (hall l (List.mem_cons_self l ls))
    simp only [scanFrom]
    rw [h1]
    exact ih (i + 1) (fun x hx => hall x (List.mem_cons_of_mem l hx))

/-- C6 witness: a continuation left open at end of file consumes the tail
of the file without flagging anything. -/
theorem unterminated_continuation_consumes_rest_witness :
    scanFrom ⟨[], false, true⟩ 2 ["  b,".data, "  c".data, "fn f()".data]
      = ⟨[], false, true⟩ :=
  unterminated_continuation_consumes_rest ⟨[], false, true⟩ 2 _ rfl (by decide)

/-- The exit signal is zero exactly when no crash happened and no scanned
file had errors (check_use.py lines 66-80). -/
lemma mainExit_eq_zero_iff (files : List (Option (List (List Char)))) :
    mainExit files = some 0 ↔
      ((scanAll files).2 = false ∧ ∀ p ∈ (scanAll files).1, p.1 = false) := by
  simp only [mainExit]
  cases h2 : (scanAll files).2 with
  | false =>
    cases h1 : (scanAll files).1.any (fun p => p.1) with
    | false =>
      simp only [List.any_eq_false] at h1
      simp [h1, Bool.not_eq_true] at *
      exact h1
    | true =>
      rw [List.any_eq_true] at h1
      obtain ⟨p, hp, hp1⟩ := h1
      simp only [if_neg, Bool.false_eq_true, not_false_iff, if_false]
      constructor
      · intro h; simp at h
      · rintro ⟨-, hall⟩
        exact absurd hp1 (by simp [hall p hp])
  | true => simp [h2]

/-- C7: the aggregate exit signal is success (`some 0`) iff every file was
readable and scanned clean; any violation or any read failure yields a
non-success signal (`some 1` or abnormal termination `none`). -/
theorem exit_zero_iff_all_clean (files : List (Option (List (List Char)))) :
    mainExit files = some 0 ↔
      ∀ f ∈ files, ∃ ls, f = some ls ∧ (check_file ls).1 = false := by
  rw [mainExit_eq_zero_iff]
  induction files with
  | nil => simp [scanAll]
  | cons f fs ih =>
    cases f with
    | none => simp [scanAll]
    | some ls =>
      simp only [scanAll, List.forall_mem_cons, Option.some.injEq,
        exists_eq_left'] at ih ⊢
      tauto

/-- C2 amended: only `use ` lines enter the multi-line continuation state.
A line whose trimmed text does not start with `use ` — in particular every
`mod `/`pub mod ` (ModuleDecl) line — leaves the scanner out of
continuation (the test on check_use.py line 43 requires the `use `
keyword), while a `use ` line containing `\x7b` and no `\x7d` does enter
it. -/
theorem only_use_lines_enter_continuation (s : ScanState) (i : Nat)
    (line : List Char) (hm : s.in_multiline_use = false) :
    ("use ".data.isPrefixOf (strip line) = false →
      (processLine s i line).in_multiline_use = false) ∧
    ("use ".data.isPrefixOf (strip line) = true →
      (strip line).contains '\x7b' = true →
      (strip line).contains '\x7d' = false →
      (processLine s i line).in_multiline_use = true) := by
  constructor
  · intro hu
    simp only [List.isPrefixOf_iff_prefix, Bool.eq_false_iff, ne_eq] at hu
    by_cases hE : strip line = []
    · simp [processLine, hE, hm]
    · by_cases hC : "//".data <+: strip line
      · simp [processLine, hE, hC, hm]
      · by_cases hM : "mod ".data <+: strip line <;>
          by_cases hP : "pub mod ".data <+: strip line <;>
          by_cases hAt : "#[".data <+: strip line <;>
          simp [processLine, hE, hC, hM, hP, hAt, hm, hu]
  · intro hu hb hnb
    obtain ⟨t, ht⟩ := eq_cons_of_isPrefixOf_cons
      (show ('u' :: "se ".data).isPrefixOf (strip line) = true from hu)
    have hne : ¬(strip line = []) := by rw [ht]; simp
    have hcm : ¬("//".data <+: strip line) := by
      rw [ht]
      intro hpre
      rw [show ("//".data) = '/' :: "/".data from rfl, List.cons_prefix_cons] at hpre
      exact absurd hpre.1 (by decide)
    rw [List.isPrefixOf_iff_prefix] at hu
    have hb' : '\x7b' ∈ strip line := by simpa using hb
    have hnb' : '\x7d' ∉ strip line := by simpa using hnb
    simp [processLine, hne, hcm, hm, hu, hb', hnb']

/-- C2 witness: a concrete ModuleDecl opener stays out of continuation and
a concrete `use` opener enters it. -/
theorem only_use_lines_enter_continuation_witness :
    (processLine initState 0 "mod x \x7b".data).in_multiline_use = false ∧
    (processLine initState 0 "use y::\x7b".data).in_multiline_use = true :=
  ⟨(only_use_lines_enter_continuation initState 0 "mod x \x7b".data rfl).1
      (by decide),
    (only_use_lines_enter_continuation initState 0 "use y::\x7b".data rfl).2
      (by decide) (by decide) (by decide)⟩

/-- C3 amended: while in the continuation state, every line is consumed
without being flagged or counting as body (errors and `seen_non_use_code`
never change), and the continuation ends exactly on the first line that is
neither blank nor a comment and contains the terminator — blank and
comment lines are skipped (check_use.py line 26) before the continuation
test and never end it. -/
theorem continuation_consumes_and_ends (s : ScanState) (i : Nat)
    (line : List Char) (hm : s.in_multiline_use = true) :
    (processLine s i line).errors = s.errors ∧
    (processLine s i line).seen_non_use_code = s.seen_non_use_code ∧
    ((processLine s i line).in_multiline_use = false ↔
      ((strip line).isEmpty = false ∧
        "//".data.isPrefixOf (strip line) = false ∧
        (strip line).contains '\x3b' = true)) := by
  by_cases hE : strip line = []
  · refine ⟨by simp [processLine, hE], by simp [processLine, hE], ?_⟩
    simp [processLine, hE, hm]
  · by_cases hC : "//".data <+: strip line
    · refine ⟨by simp [processLine, hE, hC], by simp [processLine, hE, hC], ?_⟩
      simp [processLine, hE, hC, hm, List.isPrefixOf_iff_prefix,
        Bool.eq_false_iff]
    · by_cases hS : '\x3b' ∈ strip line
      · refine ⟨by simp [processLine, hE, hC, hm, hS],
          by simp [processLine, hE, hC, hm, hS], ?_⟩
        simp [processLine, hE, hC, hm, hS, List.isPrefixOf_iff_prefix,
          Bool.eq_false_iff]
      · refine ⟨by simp [processLine, hE, hC, hm, hS],
          by simp [processLine, hE, hC, hm, hS], ?_⟩
        simp [processLine, hE, hC, hm, hS]

/-- C3 witness: inside a continuation a content line without the
terminator is consumed silently, and a line with the terminator closes the
continuation. -/
theorem continuation_consumes_and_ends_witness :
    (processLine ⟨[], true, true⟩ 0 "  b,".data).errors = [] ∧
    (processLine ⟨[], true, true⟩ 0 "\x7d;".data).in_multiline_use = false :=
  ⟨(continuation_consumes_and_ends ⟨[], true, true⟩ 0 "  b,".data rfl).1,
    ((continuation_consumes_and_ends ⟨[], true, true⟩ 0 "\x7d;".data rfl).2.2).mpr
      (by decide)⟩

/-- A line allowed at the top (blank, comment, attribute, module or use
declaration) processed from a state that has not yet seen body code leaves
the error list untouched and `seen_non_use_code` false: no branch of
check_use.py lines 26-50 can append an error (line 46 needs
`seen_non_use_code`) or take the `else` of line 48. -/
lemma processLine_topAllowed (s : ScanState) (i : Nat) (l : List Char)
    (hseen : s.seen_non_use_code = false) (hl : topAllowed l = true) :
    (processLine s i l).errors = s.errors ∧
    (processLine s i l).seen_non_use_code = false := by
  by_cases hE : strip l = []
  · simp [processLine, hE, hseen]
  · by_cases hC : "//".data <+: strip l
    · simp [processLine, hE, hC, hseen]
    · by_cases hM2 : s.in_multiline_use = true
      · by_cases hS : '\x3b' ∈ strip l <;>
          simp [processLine, hE, hC, hM2, hS, hseen]
      · by_cases hU : "use ".data <+: strip l
        · by_cases hB : '\x7b' ∈ strip l <;> by_cases hNB : '\x7d' ∈ strip l <;>
            simp [processLine, hE, hC, hM2, hU, hB, hNB, hseen]
        · by_cases hM : "mod ".data <+: strip l <;>
            by_cases hP : "pub mod ".data <+: strip l <;>
            by_cases hAt : "#[".data <+: strip l <;>
            first
              | (simp [processLine, hE, hC, hM2, hU, hM, hP, hAt, hseen]; done)
              | exact absurd hl (by simp [topAllowed, hE, hC, hU, hM, hP, hAt])

/-- Scanning lines that are all allowed at the top, from a state that has
not yet seen body code, collects no error and never sets
`seen_non_use_code`. -/
lemma scanFrom_topAllowed (lines : List (List Char)) : ∀ (s : ScanState) (i : Nat),
    s.seen_non_use_code = false → (∀ l ∈ lines, topAllowed l = true) →
    (scanFrom s i lines).errors = s.errors ∧
    (scanFrom s i lines).seen_non_use_code = false := by
  induction lines with
  | nil => exact fun s i h _ => ⟨rfl, h⟩
  | cons l ls ih =>
    intro s i hseen hall
    have h1 := processLine_topAllowed s i l hseen (hall l (List.mem_cons_self l ls))
    simp only [scanFrom]
    have h2 := ih (processLine s i l) (i + 1) h1.2
      (fun x hx => hall x (List.mem_cons_of_mem l hx))
    exact ⟨h2.1.trans h1.1, h2.2⟩

/-- C5: Attribute (`#[`) and ModuleDecl (`mod `/`pub mod `) lines processed
in any state never change the error list and never change
`seen_non_use_code`; and a file all of whose lines are blank, comment,
attribute, module or use lines (in particular: only Attribute/ModuleDecl
lines before `use` Declarations) is reported clean. -/
theorem attr_mod_lines_never_flagged :
    (∀ (s : ScanState) (i : Nat) (line : List Char),
      ("#[".data.isPrefixOf (strip line) = true ∨
        "mod ".data.isPrefixOf (strip line) = true ∨
        "pub mod ".data.isPrefixOf (strip line) = true) →
      (processLine s i line).errors = s.errors ∧
      (processLine s i line).seen_non_use_code = s.seen_non_use_code) ∧
    (∀ lines : List (List Char),
      (∀ l ∈ lines, topAllowed l = true) → check_file lines = (false, [])) := by
  constructor
  · intro s i line hl
    obtain ⟨c, q, t, hpre, ht, hcu, hcs⟩ :
        ∃ (c : Char) (q t : List Char), (c :: q).isPrefixOf (strip line) = true ∧
          strip line = c :: t ∧ c ≠ 'u' ∧ c ≠ '/' := by
      rcases hl with h | h | h
      · obtain ⟨t, ht⟩ := eq_cons_of_isPrefixOf_cons
          (show ('#' :: "[".data).isPrefixOf (strip line) = true from h)
        exact ⟨'#', "[".data, t, h, ht, by decide, by decide⟩
      · obtain ⟨t, ht⟩ := eq_cons_of_isPrefixOf_cons
          (show ('m' :: "od ".data).isPrefixOf (strip line) = true from h)
        exact ⟨'m', "od ".data, t, h, ht, by decide, by decide⟩
      · obtain ⟨t, ht⟩ := eq_cons_of_isPrefixOf_cons
          (show ('p' :: "ub mod ".data).isPrefixOf (strip line) = true from h)
        exact ⟨'p', "ub mod ".data, t, h, ht, by decide, by decide⟩
    have hne : ¬(strip line = []) := by rw [ht]; simp
    have hcm : ¬("//".data <+: strip line) := by
      rw [ht]
      intro hp
      rw [show ("//".data) = '/' :: "/".data from rfl, List.cons_prefix_cons] at hp
      exact hcs hp.1.symm
    have huse : ¬("use ".data <+: strip line) := by
      rw [ht]
      intro hp
      rw [show ("use ".data) = 'u' :: "se ".data from rfl, List.cons_prefix_cons] at hp
      exact hcu hp.1.symm
    have hl' : "#[".data <+: strip line ∨ "mod ".data <+: strip line ∨
        "pub mod ".data <+: strip line := by
      rcases hl with h | h | h
      · exact Or.inl (List.isPrefixOf_iff_prefix.mp h)
      · exact Or.inr (Or.inl (List.isPrefixOf_iff_prefix.mp h))
      · exact Or.inr (Or.inr (List.isPrefixOf_iff_prefix.mp h))
    by_cases hM2 : s.in_multiline_use = true
    · by_cases hS : '\x3b' ∈ strip line <;>
        simp [processLine, hne, hcm, hM2, hS]
    · by_cases hM : "mod ".data <+: strip line <;>
        by_cases hP : "pub mod ".data <+: strip line <;>
        by_cases hAt : "#[".data <+: strip line <;>
        first
          | (simp [processLine, hne, hcm, huse, hM2, hM, hP, hAt]; done)
          | exact absurd hl' (by simp [hM, hP, hAt])
  · intro lines hall
    have h := scanFrom_topAllowed lines initState 0 rfl hall
    have he : (scanFrom initState 0 lines).errors = [] := h.1
    simp [check_file, he]

/-- C5 witness: a concrete file of attribute, module and use lines (the
use line last) is clean. -/
theorem attr_mod_lines_never_flagged_witness :
    check_file ["#[derive(Debug)]".data, "mod m;".data, "pub mod n;".data,
      "use a;".data] = (false, []) :=
  attr_mod_lines_never_flagged.2 _ (by decide)
